import Mathlib

/-!
Shallow embedding of `src/BrowserFileSystemProvider.ts`.

Modelling conventions:

* JS strings are modelled as Lean `String`s, i.e. sequences of Unicode
  scalar values.  Index arithmetic (`substring`, `startsWith`, `length`
  used as an offset) is carried out on scalar values, which coincides with
  JavaScript's UTF-16 indices on every string without astral-plane
  characters.  The JS `String.length` itself is modelled exactly by
  `jsStringLength`, which counts astral characters twice.
* The module-level object `mockFileSystem` (an insertion-ordered
  string-keyed record) is modelled as an association list
  `Store = List (String × String)`; property update keeps the position of
  an existing key and appends a fresh key, and `delete` removes the key,
  exactly as JS object semantics prescribe.  `Object.keys`/`Object.entries`
  iterate in that insertion order.
* A method that can `throw`/reject is modelled as `Except FsError _`.
  In every operation of the source all throws happen before any mutation
  of the store, so an `.error` result leaves the pre-state observable;
  `storeAfter` makes that explicit.
* Timestamps (`created`/`modified`/`accessed` are fresh `new Date()`
  values at query time) are outside the embedding; `StatLike` keeps the
  remaining fields of the source's return value.
-/

deriving instance DecidableEq for Except

namespace BrowserFS

/-- JS `a || b` specialised to strings: the empty string is the only falsy
string. -/
def jsOr (a b : String) : String :=
  if a = "" then b else a

/-- JS `String.length`: the number of UTF-16 code units, i.e. astral-plane
characters (scalar value at least 0x10000) count twice. -/
def jsStringLength (s : String) : Nat :=
  s.data.foldl (fun n c => n + (if c.val < 0x10000 then 1 else 2)) 0

/-- Boolean test that the second list is a prefix of the first
(JS `String.prototype.startsWith` on the underlying characters). -/
def listStartsWith : List Char → List Char → Bool
  | _, [] => true
  | [], _ :: _ => false
  | a :: as, b :: bs => a == b && listStartsWith as bs

/-- Boolean test that `pat` occurs as a contiguous sublist of `l`
(JS `String.prototype.includes` on the underlying characters). -/
def hasSub : List Char → List Char → Bool
  | [], pat => pat.isEmpty
  | l@(_ :: t), pat => listStartsWith l pat || hasSub t pat

/-- JS `s.includes(pat)`: literal, case-sensitive substring test. -/
def jsIncludes (s pat : String) : Bool :=
  hasSub s.data pat.data

/-- JS `content.split("\n")` on the underlying characters: splitting the
empty string yields one empty line, exactly as in JS. -/
def splitNl : List Char → List (List Char)
  | [] => [[]]
  | c :: rest =>
    let r := splitNl rest
    if c == '\n' then [] :: r
    else
      match r with
      | h :: t => (c :: h) :: t
      | [] => [[c]]

/-- JS `lines.join("\n")`. -/
def joinNl : List (List Char) → String
  | [] => ""
  | [l] => String.mk l
  | l :: r :: t => String.mk l ++ "\n" ++ joinNl (r :: t)

/-- JS `path.replace(/^\/+|\/+$/g, "")`: strip every leading and trailing
slash. -/
def trimSlashes (p : String) : String :=
  String.mk (((p.data.dropWhile (· == '/')).reverse.dropWhile (· == '/')).reverse)

/-- The store underlying the module-level `mockFileSystem` object:
insertion-ordered path→content entries. -/
abbrev Store := List (String × String)

/-- JS property read `store[p]` (content of the entry, if present). -/
def lookup : Store → String → Option String
  | [], _ => none
  | e :: rest, p => if e.1 = p then some e.2 else lookup rest p

/-- JS property write `store[p] = {content := c}`: replace in place if the
key exists, append otherwise. -/
def setEntry : Store → String → String → Store
  | [], p, c => [(p, c)]
  | e :: rest, p, c => if e.1 = p then (p, c) :: rest else e :: setEntry rest p c

/-- JS `delete store[p]`. -/
def deleteKey (s : Store) (p : String) : Store :=
  s.filter (fun e => e.1 != p)

/-- The errors the provider can throw (their thrown `Error` messages are
recovered by `errorMessage`).  `typeError` is the runtime TypeError raised
by reading `.content` of `undefined`. -/
inductive FsError where
  | fileNotFound (p : String)
  | sourceNotFound (p : String)
  | copyDestConflict (p : String)
  | renameDestConflict (p : String)
  | pathNotExist (p : String)
  | deleteNotImplemented
  | typeError
  deriving DecidableEq, Repr

/-- The message attached to each thrown error in the source. -/
def errorMessage : FsError → String
  | .fileNotFound p => "File not found: " ++ p
  | .sourceNotFound p => "Source file not found: " ++ p
  | .copyDestConflict p =>
      "Destination file already exists: " ++ p ++ ". Use overwrite option to replace."
  | .renameDestConflict p => "Destination file already exists: " ++ p
  | .pathNotExist p => "Path " ++ p ++ " does not exist"
  | .deleteNotImplemented => "deleteFile not implemented in mock."
  | .typeError => "Cannot read properties of undefined (reading content)"

/-- Method `exists(filePath)`: `!!mockFileSystem[filePath]`. -/
def existsFile (s : Store) (p : String) : Bool :=
  (lookup s p).isSome

/-- Method `readFile(filePath)`: returns `content || ""` of the entry, or
throws `File not found`. -/
def readFile (s : Store) (p : String) : Except FsError String :=
  match lookup s p with
  | some c => .ok (jsOr c "")
  | none => .error (.fileNotFound p)

/-- Method `writeFile(filePath, content)`: unconditional entry update
(`content.toString("utf-8")` is the identity on strings). -/
def writeFile (s : Store) (p c : String) : Store :=
  setEntry s p c

/-- Method `appendFile(filePath, content)`: the source reads
`mockFileSystem[filePath].content ?? ""`, so a present entry is extended,
while a missing entry makes the `.content` access throw a TypeError — the
`?? ""` only guards a missing `content` property, never a missing entry. -/
def appendFile (s : Store) (p c : String) : Except FsError Store :=
  match lookup s p with
  | some old => .ok (setEntry s p (old ++ c))
  | none => .error .typeError

/-- Method `deleteFile(filePath)`: unconditionally rejects with
`deleteFile not implemented in mock.` and never touches the store. -/
def deleteFile (_s : Store) (_p : String) : Except FsError Store :=
  .error .deleteNotImplemented

/-- Method `copy(source, destination, options)`: throws if the source is
missing, then throws on an existing destination without `overwrite`, and
otherwise duplicates the source's content at the destination. -/
def copy (s : Store) (src dst : String) (overwrite : Bool) : Except FsError Store :=
  match lookup s src with
  | none => .error (.sourceNotFound src)
  | some c =>
    if (lookup s dst).isSome && !overwrite then .error (.copyDestConflict dst)
    else .ok (setEntry s dst c)

/-- Method `rename(oldPath, newPath)`: throws if the source is missing,
then throws on an existing destination, and otherwise installs the content
at the new path and deletes the old one. -/
def rename (s : Store) (src dst : String) : Except FsError Store :=
  match lookup s src with
  | none => .error (.sourceNotFound src)
  | some c =>
    if (lookup s dst).isSome then .error (.renameDestConflict dst)
    else .ok (deleteKey (setEntry s dst c) src)

/-- The non-timestamp fields of the source's `stat` return value. -/
structure StatLike where
  path : String
  absolutePath : String
  isFile : Bool
  isDirectory : Bool
  isSymbolicLink : Bool
  size : Nat
  deriving DecidableEq, Repr

/-- Method `stat(filePath)`: throws on a missing path, otherwise reports a
file of size `content.length` (JS UTF-16 length). -/
def stat (s : Store) (p : String) : Except FsError StatLike :=
  match lookup s p with
  | none => .error (.pathNotExist p)
  | some c =>
    .ok { path := p, absolutePath := p, isFile := true, isDirectory := false,
          isSymbolicLink := false, size := jsStringLength c }

/-- The store observable after an operation: a thrown error leaves the
pre-state (in the source every throw precedes every mutation). -/
def storeAfter (r : Except FsError Store) (s : Store) : Store :=
  match r with
  | .ok s2 => s2
  | .error _ => s

/-- Path normalization of `getDirectoryTree`: the root stays `/`, any other
argument has all leading/trailing slashes stripped and a single leading
slash prepended. -/
def normalizePath (path : String) : String :=
  if path = "/" then "/" else "/" ++ trimSlashes path

/-- The filter of `getDirectoryTree` over the store's keys: everything for
the root, `startsWith(normalized + "/")` when recursive, and otherwise a
non-empty, slash-free remainder after dropping `normalized.length + 1`
characters — the prefix itself is not checked in the non-recursive case. -/
def treeMatches (n : String) (recursive : Bool) (fp : String) : Bool :=
  if n = "/" then true
  else if recursive then listStartsWith fp.data (n ++ "/").data
  else
    let rel := fp.data.drop (n.length + 1)
    !rel.isEmpty && !(hasSub rel "/".data)

/-- The path handed to the ignore callback: the key with the leading slash
stripped for the root, and with `normalized.length + 1` characters dropped
otherwise. -/
def relativeName (n fp : String) : String :=
  if n = "/" then String.mk (fp.data.drop 1)
  else String.mk (fp.data.drop (n.length + 1))

/-- Whether an entry survives an optional ignore callback. -/
def keepRel (ig : Option (String → Bool)) (rel : String) : Bool :=
  match ig with
  | some f => !(f rel)
  | none => true

/-- Method `getDirectoryTree(path, {ig, recursive})`, as the list of paths
the generator yields, in order. -/
def getDirectoryTree (s : Store) (path : String) (recursive : Bool)
    (ig : Option (String → Bool)) : List String :=
  let n := normalizePath path
  ((s.map (·.1)).filter (treeMatches n recursive)).filter
    (fun fp => keepRel ig (relativeName n fp))

/-- One grep match record (`match` is a Lean keyword, hence `matchLine`);
`content` is `null` exactly when no context was requested. -/
structure GrepResult where
  file : String
  line : Nat
  matchLine : String
  matchedString : String
  content : Option String
  deriving DecidableEq, Repr

/-- The per-file loop of `grep`: for every line index whose line contains
the search string, one record with 1-based line number and, if a context
window was requested, `lines.slice(start, end + 1).join("\n")` where
`start = Math.max(0, i - linesBefore)` and
`end = Math.min(lines.length - 1, i + linesAfter)`. -/
def grepFile (search : String) (linesBefore linesAfter : Nat)
    (file content : String) : List GrepResult :=
  let lines := splitNl content.data
  (List.range lines.length).filterMap fun i =>
    match lines[i]? with
    | none => none
    | some line =>
      if hasSub line search.data then
        let start := i - linesBefore
        let stop := min (lines.length - 1) (i + linesAfter)
        some { file := file, line := i + 1, matchLine := String.mk line,
               matchedString := search,
               content := if linesBefore > 0 || linesAfter > 0 then
                   some (joinNl ((lines.drop start).take (stop + 1 - start)))
                 else none }
      else none

/-- Method `grep(searchString, {ignoreFilter, includeContent})` for a
single search string: the per-file records of every non-ignored entry, in
store order. -/
def grep (s : Store) (search : String) (ignoreFilter : Option (String → Bool))
    (linesBefore linesAfter : Nat) : List GrepResult :=
  (s.filter (fun e => keepRel ignoreFilter e.1)).flatMap
    (fun e => grepFile search linesBefore linesAfter e.1 e.2)

/-- The module-level seed data of `mockFileSystem`. -/
def initialStore : Store :=
  [("/README.md", "# Mock File System\n\nThis is a sample README file."),
   ("/src/index.js", "console.log(\"Hello from mock index.js\");"),
   ("/src/components/Button.jsx",
    "const Button = () => <button>Click Me</button>;\nexport default Button;"),
   ("/package.json", "\x7b \"name\": \"mock-project\", \"version\": \"1.0.0\" \x7d")]

/-- The module state of `BrowserFileSystemProvider.ts`: the single
module-level `mockFileSystem` object. -/
structure ModuleState where
  mockFileSystem : Store
  deriving DecidableEq

/-- A `BrowserFileSystemProvider` instance: the class declares no fields
and no constructor, so an instance carries no state of its own. -/
structure BrowserFileSystemProvider where
  deriving DecidableEq

/-- Evaluating `new BrowserFileSystemProvider()`: allocates a stateless
instance and leaves the module state untouched. -/
def constructProvider (m : ModuleState) : BrowserFileSystemProvider × ModuleState :=
  (⟨⟩, m)

/-- The `exists` method as invoked on an instance: it reads the shared
module-level store, ignoring the receiver. -/
def BrowserFileSystemProvider.existsFile (_self : BrowserFileSystemProvider)
    (m : ModuleState) (p : String) : Bool :=
  BrowserFS.existsFile m.mockFileSystem p

/-- The `readFile` method as invoked on an instance. -/
def BrowserFileSystemProvider.readFile (_self : BrowserFileSystemProvider)
    (m : ModuleState) (p : String) : Except FsError String :=
  BrowserFS.readFile m.mockFileSystem p

/-- The `writeFile` method as invoked on an instance: it mutates the shared
module-level store. -/
def BrowserFileSystemProvider.writeFile (_self : BrowserFileSystemProvider)
    (m : ModuleState) (p c : String) : ModuleState :=
  ⟨BrowserFS.writeFile m.mockFileSystem p c⟩

/-! Supporting lemmas about the store primitives and the string helpers. -/

lemma jsOr_empty (c : String) : jsOr c "" = c := by
  unfold jsOr
  split <;> simp_all

lemma lookup_setEntry_self (s : Store) (p c : String) :
    lookup (setEntry s p c) p = some c := by
  induction s with
  | nil => simp [setEntry, lookup]
  | cons e rest ih =>
    by_cases h : e.1 = p <;> simp [setEntry, lookup, h, ih]

lemma lookup_setEntry_ne (s : Store) (p c q : String) (h : q ≠ p) :
    lookup (setEntry s p c) q = lookup s q := by
  have hpq : ¬ p = q := fun hc => h hc.symm
  induction s with
  | nil => simp [setEntry, lookup, hpq]
  | cons e rest ih =>
    by_cases he : e.1 = p
    · subst he
      simp [setEntry, lookup, hpq]
    · simp only [setEntry, he, if_false, lookup, ih]

lemma lookup_deleteKey_self (s : Store) (p : String) :
    lookup (deleteKey s p) p = none := by
  induction s with
  | nil => rfl
  | cons e rest ih =>
    simp only [deleteKey, List.filter_cons] at ih ⊢
    by_cases h : e.1 = p
    · rw [if_neg (by simp [h])]
      exact ih
    · rw [if_pos (by simp [h])]
      simp only [lookup, h, if_false]
      exact ih

lemma lookup_deleteKey_ne (s : Store) (p q : String) (h : q ≠ p) :
    lookup (deleteKey s p) q = lookup s q := by
  have hpq : ¬ p = q := fun hc => h hc.symm
  induction s with
  | nil => rfl
  | cons e rest ih =>
    simp only [deleteKey, List.filter_cons] at ih ⊢
    by_cases he : e.1 = p
    · rw [if_neg (by simp [he])]
      subst he
      simp only [lookup, hpq, if_false]
      exact ih
    · rw [if_pos (by simp [he])]
      simp only [lookup, ih]

lemma listStartsWith_nil (l : List Char) : listStartsWith l [] = true := by
  cases l <;> rfl

lemma startsWith_iff (p l : List Char) : listStartsWith l p = true ↔ p <+: l := by
  induction p generalizing l with
  | nil =>
    rw [listStartsWith_nil]
    simp
  | cons b bs ih =>
    cases l with
    | nil =>
      constructor
      · intro hc
        cases hc
      · intro hc
        simp at hc
    | cons a as =>
      have h1 : listStartsWith (a :: as) (b :: bs) = (a == b && listStartsWith as bs) := rfl
      rw [h1, Bool.and_eq_true, beq_iff_eq, ih as, List.cons_prefix_cons]
      constructor
      · rintro ⟨rfl, hp⟩
        exact ⟨rfl, hp⟩
      · rintro ⟨rfl, hp⟩
        exact ⟨rfl, hp⟩

lemma hasSub_iff (l p : List Char) : hasSub l p = true ↔ p <:+: l := by
  induction l with
  | nil =>
    show p.isEmpty = true ↔ _
    rw [List.isEmpty_iff, List.infix_nil]
  | cons a t ih =>
    show (listStartsWith (a :: t) p || hasSub t p) = true ↔ _
    rw [Bool.or_eq_true, startsWith_iff, ih, List.infix_cons_iff]

lemma hasSub_eq_decide (l p : List Char) : hasSub l p = decide (p <:+: l) := by
  by_cases h : p <:+: l
  · simp [h, hasSub_iff]
  · have hf : hasSub l p ≠ true := fun hc => h ((hasSub_iff l p).mp hc)
    simp [h, Bool.eq_false_iff.mpr hf]

lemma hasSub_empty (l : List Char) : hasSub l [] = true := by
  cases l with
  | nil => rfl
  | cons a t =>
    show (listStartsWith (a :: t) [] || hasSub t []) = true
    rw [listStartsWith_nil]
    rfl

lemma hasSub_single (l : List Char) (c : Char) : hasSub l [c] = true ↔ c ∈ l := by
  induction l with
  | nil =>
    constructor
    · intro hc
      cases hc
    · intro hc
      cases hc
  | cons a t ih =>
    show (listStartsWith (a :: t) [c] || hasSub t [c]) = true ↔ _
    have h1 : listStartsWith (a :: t) [c] = (a == c && listStartsWith t []) := rfl
    rw [h1, listStartsWith_nil, Bool.and_true, Bool.or_eq_true, beq_iff_eq, ih, List.mem_cons]
    constructor
    · rintro (rfl | hm)
      exacts [Or.inl rfl, Or.inr hm]
    · rintro (rfl | hm)
      exacts [Or.inl rfl, Or.inr hm]

lemma length_filterMap_of_total {α β : Type} (l : List α) (f : α → Option β)
    (h : ∀ a ∈ l, (f a).isSome) : (l.filterMap f).length = l.length := by
  induction l with
  | nil => rfl
  | cons a t ih =>
    have ha := h a (by simp)
    cases hfa : f a with
    | none => rw [hfa] at ha; simp at ha
    | some b =>
      simp [List.filterMap_cons, hfa, ih (fun x hx => h x (by simp [hx]))]

lemma readFile_writeFile (s : Store) (p c : String) :
    readFile (writeFile s p c) p = .ok c := by
  simp [readFile, writeFile, lookup_setEntry_self, jsOr_empty]

/-! Theorems settling the claims. -/

/-- C9: for all paths p and content strings c, writeFile(p, c) followed by
readFile(p) yields exactly c. -/
theorem writeFile_readFile_roundtrip (s : Store) (p c : String) :
    readFile (writeFile s p c) p = .ok c :=
  readFile_writeFile s p c

/-- C1: evaluation of the code at the failing input.  deleteFile never
succeeds: it unconditionally rejects with the message
`deleteFile not implemented in mock.` and leaves the store untouched, so
after deleteFile("/README.md") the entry still exists — contradicting the
claim (and the repository's own tests and spec), which demand idempotent
success with exists(p) = false afterwards. -/
theorem deleteFile_always_rejects :
    deleteFile initialStore "/README.md" = .error .deleteNotImplemented ∧
    errorMessage .deleteNotImplemented = "deleteFile not implemented in mock." ∧
    existsFile (storeAfter (deleteFile initialStore "/README.md") initialStore)
      "/README.md" = true := by
  refine ⟨rfl, rfl, by decide⟩

/-- C2: evaluation of the code at the failing input.  appendFile on a path
with no entry reads `.content` of `undefined` and throws a TypeError
instead of creating the entry — contradicting the claim (and the
repository's own test `should create file if it doesn't exist`). -/
theorem appendFile_missing_entry_throws :
    existsFile initialStore "/new-file.txt" = false ∧
    appendFile initialStore "/new-file.txt" "New content" = .error .typeError := by
  refine ⟨by decide, by decide⟩

/-- C3 counterexample: starting from the module's seed state, construct
two provider instances; "/x.txt" does not exist, yet after a
writeFile("/x.txt", "hi") through the first instance, exists and readFile
through the second, independently constructed instance observe the write —
because both instances read the one module-level mockFileSystem. -/
theorem instances_share_store_counterexample :
    ((constructProvider (constructProvider ⟨initialStore⟩).2).1).existsFile
        (constructProvider (constructProvider ⟨initialStore⟩).2).2 "/x.txt" = false ∧
    ((constructProvider (constructProvider ⟨initialStore⟩).2).1).existsFile
        (((constructProvider ⟨initialStore⟩).1).writeFile
          (constructProvider (constructProvider ⟨initialStore⟩).2).2 "/x.txt" "hi")
        "/x.txt" = true ∧
    ((constructProvider (constructProvider ⟨initialStore⟩).2).1).readFile
        (((constructProvider ⟨initialStore⟩).1).writeFile
          (constructProvider (constructProvider ⟨initialStore⟩).2).2 "/x.txt" "hi")
        "/x.txt" = .ok "hi" := by
  refine ⟨by decide, by decide, by decide⟩

/-- C3 amended: BrowserFileSystemProvider instances carry no state of
their own; they all read and write the single module-level mockFileSystem,
so a writeFile(p, c) through any instance is observed through every
instance (freshly constructed or not): exists(p) becomes true and
readFile(p) returns c. -/
theorem instances_share_module_store
    (a b : BrowserFileSystemProvider) (m : ModuleState) (p c : String) :
    b.existsFile (a.writeFile m p c) p = true ∧
    b.readFile (a.writeFile m p c) p = .ok c := by
  constructor
  · simp [BrowserFileSystemProvider.existsFile, BrowserFileSystemProvider.writeFile,
      existsFile, writeFile, lookup_setEntry_self]
  · exact readFile_writeFile m.mockFileSystem p c

/-- C5 counterexample: "/README.md" exists in the seed store, yet
rename("/nope", "/README.md") does not signal a conflict error naming the
destination — the source-existence check runs first, so the error is
`Source file not found: /nope`, whose message does not mention the
destination at all (both paths are left unchanged, but the claimed error
shape is wrong). -/
theorem rename_missing_source_not_conflict :
    existsFile initialStore "/README.md" = true ∧
    rename initialStore "/nope" "/README.md" = .error (.sourceNotFound "/nope") ∧
    FsError.sourceNotFound "/nope" ≠ FsError.renameDestConflict "/README.md" ∧
    jsIncludes (errorMessage (FsError.sourceNotFound "/nope")) "/README.md" = false := by
  refine ⟨by decide, by decide, by decide, by decide⟩

/-- C5 amended: if src does not exist, rename signals a source-not-found
error naming src (even when dst exists); if src exists and dst exists,
rename signals a conflict error naming dst; every failed rename leaves the
store — hence both paths — unchanged; and after a successful rename,
exists(src) is false and readFile(dst) returns the pre-rename content of
src. -/
theorem rename_spec (s : Store) (src dst : String) :
    (lookup s src = none → rename s src dst = .error (.sourceNotFound src)) ∧
    (∀ c, lookup s src = some c → (lookup s dst).isSome = true →
        rename s src dst = .error (.renameDestConflict dst) ∧
        errorMessage (.renameDestConflict dst)
          = "Destination file already exists: " ++ dst) ∧
    (∀ e, rename s src dst = .error e → storeAfter (rename s src dst) s = s) ∧
    (∀ c, lookup s src = some c → lookup s dst = none →
        (rename s src dst).isOk = true ∧
        existsFile (storeAfter (rename s src dst) s) src = false ∧
        readFile (storeAfter (rename s src dst) s) dst = .ok c) := by
  refine ⟨?_, ?_, ?_, ?_⟩
  · intro h
    simp [rename, h]
  · intro c hc hd
    exact ⟨by simp [rename, hc, hd], rfl⟩
  · intro e he
    simp [storeAfter, he]
  · intro c hc hd
    have hne : dst ≠ src := by
      intro h
      rw [h, hc] at hd
      cases hd
    simp only [rename, hc, hd, Option.isSome_none, Bool.false_eq_true, if_false,
      storeAfter, Except.isOk]
    refine ⟨rfl, ?_, ?_⟩
    · simp [existsFile, lookup_deleteKey_self]
    · simp [readFile, lookup_deleteKey_ne _ _ _ hne, lookup_setEntry_self, jsOr_empty]

/-- C5 witness: a successful rename of "/a.txt" (content "hello") to
"/b.txt" on a one-entry store, via the amended theorem. -/
theorem rename_spec_witness :
    lookup [("/a.txt", "hello")] "/a.txt" = some "hello" ∧
    lookup [("/a.txt", "hello")] "/b.txt" = none ∧
    ((rename [("/a.txt", "hello")] "/a.txt" "/b.txt").isOk = true ∧
      existsFile (storeAfter (rename [("/a.txt", "hello")] "/a.txt" "/b.txt")
        [("/a.txt", "hello")]) "/a.txt" = false ∧
      readFile (storeAfter (rename [("/a.txt", "hello")] "/a.txt" "/b.txt")
        [("/a.txt", "hello")]) "/b.txt" = .ok "hello") :=
  ⟨by decide, by decide,
    (rename_spec [("/a.txt", "hello")] "/a.txt" "/b.txt").2.2.2 "hello"
      (by decide) (by decide)⟩

/-- C6 counterexample: "/README.md" exists in the seed store, yet
copy("/nope", "/README.md") without overwrite does not signal a conflict
error identifying the destination — the source-existence check runs first,
so the error is `Source file not found: /nope`, whose message does not
contain the destination path. -/
theorem copy_missing_source_not_conflict :
    existsFile initialStore "/README.md" = true ∧
    copy initialStore "/nope" "/README.md" false = .error (.sourceNotFound "/nope") ∧
    jsIncludes (errorMessage (FsError.sourceNotFound "/nope")) "/README.md" = false := by
  refine ⟨by decide, by decide, by decide⟩

/-- C6 amended: if src does not exist, copy signals a source-not-found
error naming src (even when dst exists and overwrite was not requested);
if src exists and dst exists without overwrite, copy signals a conflict
error whose message identifies the conflicting destination path; every
failed copy leaves the store — hence dst — unchanged; and after a
successful copy, readFile(src) and readFile(dst) both return the
pre-copy content of src, the entry at src being unchanged. -/
theorem copy_spec (s : Store) (src dst : String) (ow : Bool) :
    (lookup s src = none → copy s src dst ow = .error (.sourceNotFound src)) ∧
    (∀ c, lookup s src = some c → (lookup s dst).isSome = true → ow = false →
        copy s src dst ow = .error (.copyDestConflict dst) ∧
        errorMessage (.copyDestConflict dst)
          = "Destination file already exists: " ++ dst
              ++ ". Use overwrite option to replace.") ∧
    (∀ e, copy s src dst ow = .error e → storeAfter (copy s src dst ow) s = s) ∧
    (∀ c s2, lookup s src = some c → copy s src dst ow = .ok s2 →
        readFile s2 src = .ok c ∧ readFile s2 dst = .ok c ∧
        lookup s2 src = lookup s src) := by
  refine ⟨?_, ?_, ?_, ?_⟩
  · intro h
    simp [copy, h]
  · intro c hc hd how
    subst how
    exact ⟨by simp [copy, hc, hd], rfl⟩
  · intro e he
    simp [storeAfter, he]
  · intro c s2 hc hok
    simp only [copy, hc] at hok
    split at hok
    · cases hok
    · injection hok with h2
      subst h2
      by_cases hsd : src = dst
      · subst hsd
        simp [readFile, lookup_setEntry_self, jsOr_empty, hc]
      · simp [readFile, lookup_setEntry_self, lookup_setEntry_ne _ _ _ _ hsd,
          jsOr_empty, hc]

/-- C6 witness: copying onto the existing "/src/index.js" without
overwrite signals the conflict error, via the amended theorem. -/
theorem copy_spec_witness :
    lookup initialStore "/README.md"
      = some "# Mock File System\n\nThis is a sample README file." ∧
    (lookup initialStore "/src/index.js").isSome = true ∧
    copy initialStore "/README.md" "/src/index.js" false
      = .error (.copyDestConflict "/src/index.js") :=
  ⟨by decide, by decide,
    ((copy_spec initialStore "/README.md" "/src/index.js" false).2.1
      "# Mock File System\n\nThis is a sample README file."
      (by decide) (by decide) rfl).1⟩

/-- C8 counterexample: for an entry with content "é" (a one-character
string occupying two bytes in UTF-8), stat reports size 1 — the JS string
length — not the content length in bytes, which is 2. -/
theorem stat_size_not_bytes :
    stat [("/f.txt", "é")] "/f.txt"
      = .ok { path := "/f.txt", absolutePath := "/f.txt", isFile := true,
              isDirectory := false, isSymbolicLink := false, size := 1 } ∧
    String.utf8ByteSize "é" = 2 ∧ (1 : Nat) ≠ 2 := by
  refine ⟨by decide, by decide, by decide⟩

/-- C8 amended: stat on an existing path reports isFile true, isDirectory
false and size equal to the content's JS string length (UTF-16 code units
— equal to the byte count only for ASCII content, astral characters
counting twice); stat on a path with no entry signals a hard error naming
the path. -/
theorem stat_spec (s : Store) (p : String) :
    (∀ c, lookup s p = some c →
        stat s p = .ok { path := p, absolutePath := p, isFile := true,
                         isDirectory := false, isSymbolicLink := false,
                         size := jsStringLength c }) ∧
    (lookup s p = none → stat s p = .error (.pathNotExist p)) := by
  constructor
  · intro c hc
    simp [stat, hc]
  · intro h
    simp [stat, h]

/-- C8 witness: stat of an existing two-character ASCII entry, via the
amended theorem. -/
theorem stat_spec_witness :
    lookup [("/f.txt", "ab")] "/f.txt" = some "ab" ∧
    stat [("/f.txt", "ab")] "/f.txt"
      = .ok { path := "/f.txt", absolutePath := "/f.txt", isFile := true,
              isDirectory := false, isSymbolicLink := false,
              size := jsStringLength "ab" } :=
  ⟨by decide, (stat_spec [("/f.txt", "ab")] "/f.txt").1 "ab" (by decide)⟩

/-- C4 counterexample: on the store with entries /a.txt and /dir/b.txt,
getDirectoryTree("/", recursive:false) still yields the nested /dir/b.txt
(its suffix after the root prefix contains a further slash), and
getDirectoryTree("/dir", recursive:false) yields /a.txt, which is not a
child of /dir at all (its suffix after dropping 5 characters, "t", merely
happens to be non-empty and slash-free). -/
theorem tree_nonrecursive_counterexample :
    getDirectoryTree [("/a.txt", "x"), ("/dir/b.txt", "y")] "/" false none
      = ["/a.txt", "/dir/b.txt"] ∧
    jsIncludes (String.mk ("/dir/b.txt".data.drop 1)) "/" = true ∧
    getDirectoryTree [("/a.txt", "x"), ("/dir/b.txt", "y")] "/dir" false none
      = ["/a.txt", "/dir/b.txt"] ∧
    listStartsWith "/a.txt".data "/dir/".data = false := by
  refine ⟨by decide, by decide, by decide, by decide⟩

lemma treeMatches_false_iff (n fp : String) :
    treeMatches n false fp = true ↔
      n = "/" ∨ (fp.data.drop (n.length + 1) ≠ [] ∧
        '/' ∉ fp.data.drop (n.length + 1)) := by
  by_cases h : n = "/"
  · simp [treeMatches, h]
  · have hs : ("/" : String).data = ['/'] := rfl
    have hred : treeMatches n false fp
        = (!(fp.data.drop (n.length + 1)).isEmpty
            && !(hasSub (fp.data.drop (n.length + 1)) "/".data)) := by
      simp [treeMatches, h]
    rw [hred, hs, Bool.and_eq_true, Bool.not_eq_true', Bool.not_eq_true']
    constructor
    · rintro ⟨h1, h2⟩
      refine Or.inr ⟨?_, ?_⟩
      · intro hnil
        have hx : (fp.data.drop (n.length + 1)).isEmpty = true :=
          List.isEmpty_iff.mpr hnil
        rw [hx] at h1
        simp at h1
      · intro hmem
        have hx : hasSub (fp.data.drop (n.length + 1)) ['/'] = true :=
          (hasSub_single _ '/').mpr hmem
        rw [hx] at h2
        simp at h2
    · rintro (hroot | ⟨h1, h2⟩)
      · exact absurd hroot h
      · constructor
        · have hx : ¬ (fp.data.drop (n.length + 1)).isEmpty = true := by
            rw [List.isEmpty_iff]
            exact h1
          exact Bool.eq_false_iff.mpr hx
        · have hx : ¬ hasSub (fp.data.drop (n.length + 1)) ['/'] = true :=
            fun hc => h2 ((hasSub_single _ '/').mp hc)
          exact Bool.eq_false_iff.mpr hx

/-- C4 amended: getDirectoryTree(d, recursive:false) yields exactly the
entries fp, not excluded by the ignore callback, for which either the
normalized directory is the root "/" (every entry is then yielded, the
recursive flag being irrelevant for the root) or the suffix of fp
obtained by dropping length(normalizedDirectory) + 1 characters is
non-empty and contains no further "/" — without checking that fp actually
starts with the directory prefix, so same-shaped paths outside the
directory are yielded too. -/
theorem tree_nonrecursive_characterization
    (s : Store) (d : String) (ig : Option (String → Bool)) (fp : String) :
    fp ∈ getDirectoryTree s d false ig ↔
      (∃ c, (fp, c) ∈ s) ∧
      keepRel ig (relativeName (normalizePath d) fp) = true ∧
      (normalizePath d = "/" ∨
        (fp.data.drop ((normalizePath d).length + 1) ≠ [] ∧
         '/' ∉ fp.data.drop ((normalizePath d).length + 1))) := by
  unfold getDirectoryTree
  simp only [List.mem_filter, List.mem_map, treeMatches_false_iff]
  constructor
  · rintro ⟨⟨⟨e, he, rfl⟩, hmatch⟩, hk⟩
    exact ⟨⟨e.2, he⟩, hk, hmatch⟩
  · rintro ⟨⟨c, hc⟩, hk, hmatch⟩
    exact ⟨⟨⟨(fp, c), hc, rfl⟩, hmatch⟩, hk⟩

/-- Written from the claim's wording (refinement reference for C7): a line
matches when the search string occurs in it as a literal, case-sensitive
contiguous substring. -/
def specLineMatches (search : String) (line : List Char) : Bool :=
  decide (search.data <:+: line)

/-- Written from the claim's wording (refinement reference for C7): the
newline-joined lines from max(0, lineIndex - before) to
min(lastLineIndex, lineIndex + after) inclusive. -/
def specContext (lines : List (List Char)) (i before after : Nat) : String :=
  let start := Int.toNat (max 0 ((i : Int) - (before : Int)))
  let stop := min (lines.length - 1) (i + after)
  joinNl ((lines.drop start).take (stop + 1 - start))

/-- Written from the claim's wording (refinement reference for C7): for
every line of the file containing the search string, exactly one record
carrying the file path, the 1-based line number, the full matching line,
the matched substring, and — exactly when before > 0 or after > 0 — the
context window, and otherwise an absent content field. -/
def grepFileSpec (search : String) (before after : Nat)
    (file content : String) : List GrepResult :=
  let lines := splitNl content.data
  (List.range lines.length).filterMap fun i =>
    match lines[i]? with
    | none => none
    | some line =>
      if specLineMatches search line then
        some { file := file, line := i + 1, matchLine := String.mk line,
               matchedString := search,
               content := if before > 0 || after > 0 then
                   some (specContext lines i before after)
                 else none }
      else none

/-- Written from the claim's wording (refinement reference for C7): the
per-file records of every entry not excluded by the ignore predicate, in
store order. -/
def grepSpec (s : Store) (search : String) (ig : Option (String → Bool))
    (before after : Nat) : List GrepResult :=
  (s.filter (fun e => keepRel ig e.1)).flatMap
    (fun e => grepFileSpec search before after e.1 e.2)

lemma natSub_eq_intToNat_max (i lb : Nat) :
    i - lb = Int.toNat (max 0 ((i : Int) - (lb : Int))) := by
  rcases le_total ((i : Int) - (lb : Int)) 0 with hle | hle
  · rw [max_eq_left hle]
    omega
  · rw [max_eq_right hle]
    omega

lemma grepFile_eq_spec (search : String) (lb la : Nat) (f c : String) :
    grepFile search lb la f c = grepFileSpec search lb la f c := by
  simp only [grepFile, grepFileSpec, specLineMatches, specContext]
  congr 1
  funext i
  cases h : (splitNl c.data)[i]? with
  | none => simp [h]
  | some line =>
    simp only [h]
    rw [hasSub_eq_decide, natSub_eq_intToNat_max i lb]

/-- C7: for every store, non-empty search string and context counts, grep
produces exactly the records described by the specification: one record
per line containing the search string as a literal case-sensitive
substring, carrying the file path, the 1-based line number, the full
matching line, the matched substring, and — exactly when before > 0 or
after > 0 — the newline-joined context window, and otherwise a null
content field. -/
theorem grep_matches_specification (s : Store) (search : String)
    (ig : Option (String → Bool)) (before after : Nat) (_hne : search ≠ "") :
    grep s search ig before after = grepSpec s search ig before after := by
  unfold grep grepSpec
  congr 1
  funext e
  exact grepFile_eq_spec search before after e.1 e.2

/-- C7 witness: the spec's own worked example — one entry /f.txt with
lines a, needle, b: grep("needle") with before = after = 1 agrees with the
specification and returns the single record with line 2, match "needle"
and context "a\nneedle\nb". -/
theorem grep_matches_specification_witness :
    ("needle" : String) ≠ "" ∧
    grep [("/f.txt", "a\nneedle\nb")] "needle" none 1 1
      = grepSpec [("/f.txt", "a\nneedle\nb")] "needle" none 1 1 ∧
    grep [("/f.txt", "a\nneedle\nb")] "needle" none 1 1
      = [{ file := "/f.txt", line := 2, matchLine := "needle",
           matchedString := "needle", content := some "a\nneedle\nb" }] :=
  ⟨by decide,
    grep_matches_specification [("/f.txt", "a\nneedle\nb")] "needle" none 1 1
      (by decide),
    by decide⟩

lemma grepFile_empty_length (lb la : Nat) (f c : String) :
    (grepFile "" lb la f c).length = (splitNl c.data).length := by
  simp only [grepFile]
  rw [length_filterMap_of_total]
  · exact List.length_range _
  · intro i hi
    rw [List.mem_range] at hi
    have h : (splitNl c.data)[i]? = some ((splitNl c.data)[i]) :=
      List.getElem?_eq_getElem hi
    simp [h, hasSub_empty]

/-- C10: grep with the empty search string never fails and returns exactly
one match record for every line of every entry not excluded by the ignore
predicate — its result length is the total line count of the surviving
entries (grep is a total function in this embedding; the source likewise
throws nothing on this path). -/
theorem grep_empty_string_counts_all_lines (s : Store)
    (ig : Option (String → Bool)) (lb la : Nat) :
    (grep s "" ig lb la).length
      = ((s.filter (fun e => keepRel ig e.1)).map
          (fun e => (splitNl e.2.data).length)).sum := by
  unfold grep
  rw [List.length_flatMap]
  congr 1
  apply List.map_congr_left
  intro e _
  exact grepFile_empty_length lb la e.1 e.2

end BrowserFS
